import Mathlib

/-!
# Verification of the yucon conversion / unit-lookup core

Shallow embedding of the conversion engine of yucon (files `src/Convert.c`,
`src/UnitList.c`, with the interpreter's error reporting from
`src/Interpreter.c` and the catalog registration loop from `src/LoadConfig.c`).

Modelling conventions:
* C strings are `List Char` holding the characters strictly before the NUL
  terminator (C strings have no interior NUL).  Reading `s[i]` is `rd s i`,
  which yields the NUL character for indices at or past the end, exactly as a
  read of the terminator does.
* C `double` values are modelled by `DVal`: either an exact rational
  (idealising the finite doubles) or one of the non-finite values NaN, +inf,
  -inf.  The C `==` on doubles is `dEq`, which is false whenever either side
  is NaN.
* The process-wide mutable globals (`last_number`, `last_input_name`,
  `last_output_name` in Convert.c; `list_handle`, `last_input_unit`,
  `last_output_unit` in UnitList.c) are gathered into one state record `Sys`
  that every state-touching function takes and returns.
* Pointers into the unit list are modelled by the pointed-to record value;
  a possibly-NULL pointer is an `Option`.
-/

namespace Yucon

/-- The NUL terminator character of C strings. -/
def NULL_CHAR : Char := Char.ofNat 0

/-- `rd s i` models reading `s[i]` from a NUL-terminated C string whose
characters before the terminator are `s`: positions past the end read NUL. -/
def rd (s : List Char) (i : Nat) : Char := s.getD i NULL_CHAR

/-- C `double` values: exact rationals for the finite doubles, plus the
non-finite values.  (Rounding of decimal literals to binary64 is idealised
away; no claim in scope depends on it.) -/
inductive DVal where
  | finite (q : ℚ)
  | nan
  | posInf
  | negInf
deriving DecidableEq, Repr

/-- C `==` on doubles: false whenever either operand is NaN, ordinary
equality otherwise (`+inf == +inf` is true). -/
def dEq : DVal → DVal → Bool
  | DVal.nan, _ => false
  | _, DVal.nan => false
  | a, b => decide (a = b)

/-- `struct Unit` from UnitList.h: NULL-terminated array of alias names,
a unit-type tag, a linear conversion factor and an additive offset. -/
structure CUnit where
  unit_name : List (List Char)
  unit_type : Int
  conversion_factor : ℚ
  offset : ℚ
deriving DecidableEq, Repr

/-- The process-wide mutable state of the core: the unit list owned by
UnitList.c (`list_handle` chain, in list order) and the five recall
globals of UnitList.c and Convert.c. -/
structure Sys where
  units : List CUnit
  last_input_unit : Option CUnit
  last_output_unit : Option CUnit
  last_number : DVal
  last_input_name : Option (List Char)
  last_output_name : Option (List Char)
deriving DecidableEq, Repr

/-! ## Constants from GlobalDefines.h and UnitList.h -/

def EXIT_SUCCESS : Int := 0
def INVALID_INPUT : Int := 5
def UNIT_NF : Int := 6
def INCOMPATIBLE_UNITS : Int := 7
def UNKNOWN_PREFIX : Int := 12
def NO_NAME_GIVEN : Int := 13
def NO_NAME_ALLOWED : Int := 14
def RECALL_UNSET : Int := 15
def RECALL_LAST : Int := -5

def INPUT_UNIT : Int := 0
def OUTPUT_UNIT : Int := 1

/-! ## Convert.c: the metric-prefix table -/

/-- `get_prefix_value` from Convert.c: the numerical constant of a valid
metric prefix character (case sensitive), `-1` on failure. -/
def get_prefix_value (c : Char) : ℚ :=
  if c = 'Y' then 10 ^ 24
  else if c = 'Z' then 10 ^ 21
  else if c = 'E' then 10 ^ 18
  else if c = 'P' then 10 ^ 15
  else if c = 'T' then 10 ^ 12
  else if c = 'G' then 10 ^ 9
  else if c = 'M' then 10 ^ 6
  else if c = 'k' then 10 ^ 3
  else if c = 'h' then 10 ^ 2
  else if c = 'D' then 10 ^ 1
  else if c = 'd' then 1 / 10 ^ 1
  else if c = 'c' then 1 / 10 ^ 2
  else if c = 'm' then 1 / 10 ^ 3
  else if c = 'u' then 1 / 10 ^ 6
  else if c = 'n' then 1 / 10 ^ 9
  else if c = 'p' then 1 / 10 ^ 12
  else if c = 'f' then 1 / 10 ^ 15
  else if c = 'a' then 1 / 10 ^ 18
  else if c = 'z' then 1 / 10 ^ 21
  else if c = 'y' then 1 / 10 ^ 24
  else -1

/-! ## Convert.c: check_escape_sequences -/

/-- Result of `check_escape_sequences`: the returned `error_status`, the
final value of the out-parameter `*prefix` (field `pfx`; the caller of
get_conversion initialises it to 1), by how much the string pointer `*str`
was advanced, and the token buffer as left in memory after the call. -/
structure EscResult where
  error : Int
  pfx : ℚ
  str_off : Nat
  buf : List Char
deriving DecidableEq, Repr

/-- `check_escape_sequences` from Convert.c, the finite state machine over
the token's characters.  Each branch below is one path RESET → … →
RETURN_STATE of the loop, reading `str[0][pos]` with `pos` incremented once
per state, exactly as in the source; `pfx0` is the value the caller stored
in `*prefix` before the call.  The buffer is carried through unchanged in
every path because no statement of the source writes to it. -/
def check_escape_sequences (s : List Char) (pfx0 : ℚ) : EscResult :=
  -- state RESET, pos 0
  if rd s 0 = ':' then
    -- state GET_LAST_UNIT, pos 1: error_status = RECALL_LAST, then
    -- NO_NAME_ALLOWED if a character follows the ':'
    if rd s 1 ≠ NULL_CHAR then ⟨NO_NAME_ALLOWED, pfx0, 0, s⟩
    else ⟨RECALL_LAST, pfx0, 0, s⟩
  else if rd s 0 = '_' then
    -- state GET_PREFIX, pos 1: *prefix = get_prefix_value(str[0][1])
    if get_prefix_value (rd s 1) < 0 then
      ⟨UNKNOWN_PREFIX, get_prefix_value (rd s 1), 0, s⟩
    else
      -- state PREFIX_SET, pos 2
      if rd s 2 = ':' then
        -- state GET_LAST_UNIT, pos 3
        if rd s 3 ≠ NULL_CHAR then ⟨NO_NAME_ALLOWED, get_prefix_value (rd s 1), 0, s⟩
        else ⟨RECALL_LAST, get_prefix_value (rd s 1), 0, s⟩
      else if rd s 2 = NULL_CHAR then ⟨NO_NAME_GIVEN, get_prefix_value (rd s 1), 0, s⟩
      else ⟨EXIT_SUCCESS, get_prefix_value (rd s 1), 2, s⟩  -- *str += 2: occlude the prefix
  else ⟨EXIT_SUCCESS, pfx0, 0, s⟩  -- plain token: return immediately

/-! ## UnitList.c: the unit list and get_unit_by_name -/

/-- The alias scan of `get_unit_by_name`: walk the list from the head,
and for each node test every alias with `strcmp` (exact, case-sensitive
match); stop at the first node with a matching alias. -/
def scan_units : List CUnit → List Char → Option CUnit
  | [], _ => none
  | u :: rest, name =>
      if u.unit_name.any (fun a => a = name) then some u else scan_units rest name

/-- The prefix skip at the top of `get_unit_by_name`: `if (name[0] == '_')
name += 2;`. -/
def stripped_name (name0 : List Char) : List Char :=
  if rd name0 0 = '_' then name0.drop 2 else name0

/-- `get_unit_by_name` from UnitList.c.  Skips a metric prefix (`name += 2`
when the first character is `'_'`); a remaining leading `':'` returns the
recall slot selected by `which` without touching the state; otherwise the
list is scanned and, on a hit, exactly the selected slot is overwritten with
the found unit. -/
def get_unit_by_name (st : Sys) (name0 : List Char) (which : Int) :
    Option CUnit × Sys :=
  let name := stripped_name name0
  if rd name 0 = ':' then
    if which = INPUT_UNIT then (st.last_input_unit, st)
    else (st.last_output_unit, st)
  else
    match scan_units st.units name with
    | some u =>
        if which = INPUT_UNIT then (some u, { st with last_input_unit := some u })
        else (some u, { st with last_output_unit := some u })
    | none => (none, st)

/-- `add_unit` from UnitList.c: walk `index` nodes from the dummy head and
splice the unit in there; fail (return 0, modelled `none`) when the walk
runs off the end of the list, which a negative index always does. -/
def add_unit (u : CUnit) : Int → List CUnit → Option (List CUnit)
  | index, [] => if index = 0 then some [u] else none
  | index, x :: xs =>
      if index = 0 then some (u :: x :: xs)
      else (add_unit u (index - 1) xs).map (fun r => x :: r)

/-- The registration loop of `load_units_list` in LoadConfig.c: each parsed
unit is appended with `add_unit(next_unit, end_of_list++)`, starting from the
empty list; a failing `add_unit` leaves the list as it was (the source
ignores the return value). -/
def load_all (us : List CUnit) : List CUnit :=
  (us.foldl
    (fun (acc : List CUnit × Int) u =>
      match add_unit u acc.2 acc.1 with
      | some l => (l, acc.2 + 1)
      | none => (acc.1, acc.2 + 1))
    ([], 0)).1

/-! ## Convert.c: get_conversion -/

/-- The `char *number` argument of `get_conversion` together with the value
`strtod` (external libc) yields on it, the latter treated as an oracle. -/
structure NumberArg where
  text : List Char
  parsed : DVal
deriving DecidableEq, Repr

/-- The local `input` of `get_conversion` after the opening lines: the
parsed value unless the number text begins with `':'`, in which case the
recalled `last_number`. -/
def effective_input (st0 : Sys) (number : NumberArg) : DVal :=
  if rd number.text 0 ≠ ':' then number.parsed else st0.last_number

/-- The state after the opening lines of `get_conversion`: `last_number`
is overwritten with the parsed value exactly when the number text does not
begin with `':'` — before any validity check runs. -/
def post_number_state (st0 : Sys) (number : NumberArg) : Sys :=
  if rd number.text 0 ≠ ':' then { st0 with last_number := number.parsed } else st0

/-- The numeric validity check of get_conversion, literally
`(input == NAN) || (input == INFINITY)` with C `==` semantics: it rejects
exactly +inf, because a comparison with NaN is always false. -/
def numeric_check_rejects (d : DVal) : Bool :=
  dEq d DVal.nan || dEq d DVal.posInf

/-- One side of `get_conversion` (the input and output blocks are verbatim
copies of each other modulo `which`): run `check_escape_sequences`, resolve
the unit by recall or lookup, and on the non-recall path store the (prefix
stripped) name into the side's recall-name global.  Errors return the code
the C returns together with the state at that point. -/
def resolve_side (st : Sys) (tok : List Char) (which : Int) :
    Except (Int × Sys) (ℚ × CUnit × Bool × Sys) :=
  let esc := check_escape_sequences tok 1
  let view := esc.buf.drop esc.str_off
  if esc.error = RECALL_LAST then
    match get_unit_by_name st view which with
    | (none, st') => Except.error (RECALL_UNSET, st')
    | (some u, st') => Except.ok (esc.pfx, u, true, st')
  else if esc.error ≠ 0 then Except.error (esc.error, st)
  else
    match get_unit_by_name st view which with
    | (none, st') => Except.error (UNIT_NF, st')
    | (some u, st') =>
        -- copy_name_for_recall( unit_name, &last_*_name )
        let st'' := if which = INPUT_UNIT
          then { st' with last_input_name := some view }
          else { st' with last_output_name := some view }
        Except.ok (esc.pfx, u, false, st'')

/-- The conversion arithmetic of get_conversion (lines 349–352), on the
(idealised) doubles: for a finite input value the exact rational
`((input * input_pfx + iu.offset) * (iu.factor / ou.factor) - ou.offset) /
output_pfx`; a non-finite input (reachable only because the validity check
is broken) propagates through the IEEE arithmetic as some non-finite double,
modelled coarsely as NaN — no claim depends on that branch's value. -/
def dformula (x : DVal) (ipfx : ℚ) (iu ou : CUnit) (opfx : ℚ) : DVal :=
  match x with
  | DVal.finite q =>
      DVal.finite ((((q * ipfx + iu.offset) *
        (iu.conversion_factor / ou.conversion_factor)) - ou.offset) / opfx)
  | _ => DVal.nan

/-- Round a rational to the nearest integer, ties to even — the IEEE 754
default rounding of a value halfway between representables. -/
def round_even (r : ℚ) : ℤ :=
  if r - ⌊r⌋ < 1 / 2 then ⌊r⌋
  else if 1 / 2 < r - ⌊r⌋ then ⌊r⌋ + 1
  else if ⌊r⌋ % 2 = 0 then ⌊r⌋ else ⌊r⌋ + 1

/-- Round a nonzero rational to the nearest IEEE binary64 double (53-bit
significand, round to nearest, ties to even), as a rational: scale the
value so that its significand window becomes the integer part, round, and
scale back.  Overflow and subnormals are not modelled; they are unreachable
at the magnitudes the claims use. -/
def fl (q : ℚ) : ℚ :=
  if q = 0 then 0
  else ((round_even (q * 2 ^ (52 - Int.log 2 |q|)) : ℤ) : ℚ) *
    2 ^ (Int.log 2 |q| - 52)

/-- The conversion expression of Convert.c lines 349-352 as the hardware
actually evaluates it: C doubles are binary64, so every binary operation of
the expression rounds its exact result to the nearest double.  `dformula`
above idealises this rounding away; this refinement keeps it, and is what
settles exactness claims about the computed value. -/
def dformula_ieee (x ipfx : ℚ) (iu ou : CUnit) (opfx : ℚ) : ℚ :=
  fl (fl (fl (fl (fl (x * ipfx) + iu.offset) *
    fl (iu.conversion_factor / ou.conversion_factor)) - ou.offset) / opfx)

/-- What `get_conversion` leaves behind: its return code, the value written
through the `double *conversion` out-parameter (`none` when the error paths
leave it unwritten), and the global state. -/
structure ConvOut where
  ret : Int
  conversion : Option DVal
  st : Sys
deriving DecidableEq, Repr

/-- `get_conversion` from Convert.c, line by line: number parsing / numeral
recall, the (broken) finiteness check, resolution of both unit tokens,
the type-compatibility check, and the conversion formula. -/
def get_conversion (st0 : Sys) (number : NumberArg)
    (input_unit_name output_unit_name : List Char) : ConvOut :=
  let input := effective_input st0 number
  let st1 := post_number_state st0 number
  if numeric_check_rejects input then ⟨INVALID_INPUT, none, st1⟩
  else
    match resolve_side st1 input_unit_name INPUT_UNIT with
    | Except.error (e, st2) => ⟨e, none, st2⟩
    | Except.ok (ipfx, iu, _, st2) =>
      match resolve_side st2 output_unit_name OUTPUT_UNIT with
      | Except.error (e, st3) => ⟨e, none, st3⟩
      | Except.ok (opfx, ou, _, st3) =>
        if iu.unit_type ≠ ou.unit_type then ⟨INCOMPATIBLE_UNITS, none, st3⟩
        else ⟨EXIT_SUCCESS, some (dformula input ipfx iu ou opfx), st3⟩

/-! ## Convert.c: build_unit_str and the formatters' unit names -/

/-- `build_unit_str` from Convert.c.  First component: the freshly
allocated string when the name had to be rebuilt (prefixed recall), `none`
when the original was only adjusted.  Second component: where `*unit_str`
points after the call — `none` models the NULL pointer stored when a bare
recall fires with the side's recall name unset (the C then prints through
that NULL).  A prefixed recall with the recall name unset would call
`strlen(NULL)`, undefined behaviour; the `Option.getD []` below is an
arbitrary total stand-in for that unreachable-in-claims branch. -/
def build_unit_str (st : Sys) (unit_str : List Char) (which : Int) :
    Option (List Char) × Option (List Char) :=
  let last_unit := if which = INPUT_UNIT then st.last_input_name
    else st.last_output_name
  -- occlude underscore when using metric prefixing
  let s := if rd unit_str 0 = '_' then unit_str.drop 1 else unit_str
  if rd s 0 = ':' then (none, last_unit)  -- *unit_str = last_unit
  else if rd s 1 = ':' then
    -- rebuild: prefix character, then the recalled name
    (some (rd s 0 :: last_unit.getD []), some s)
  else (none, some s)

/-- The unit-name string that `descriptive_output_str` / `verbose_output_str`
actually interpolate for a given raw token: the rebuilt string when
`build_unit_str` returned one, otherwise wherever the (possibly adjusted)
pointer now points. -/
def displayed_unit_name (st : Sys) (unit_str : List Char) (which : Int) :
    Option (List Char) :=
  match build_unit_str st unit_str which with
  | (some rebuilt, _) => some rebuilt
  | (none, view) => view

/-- The canonical name of a unit record: its first-listed alias. -/
def canonical_name (u : CUnit) : Option (List Char) := u.unit_name.head?

/-! ## Interpreter.c: the IncompatibleUnits report -/

/-- `get_type_str` from Interpreter.c: the English name of a unit-type code
(string constants defined in LoadConfig.c); unknown codes fall back to
"length". -/
def get_type_str (t : Int) : List Char :=
  if t = 0 then ['l','e','n','g','t','h']
  else if t = 1 then ['v','o','l','u','m','e']
  else if t = 3 then ['a','r','e','a']
  else if t = 4 then ['e','n','e','r','g','y']
  else if t = 5 then ['p','o','w','e','r']
  else if t = 6 then ['m','a','s','s']
  else if t = 7 then ['f','o','r','c','e']
  else if t = 8 then ['t','o','r','q','u','e']
  else if t = 9 then ['s','p','e','e','d']
  else if t = 10 then ['p','r','e','s','s','u','r','e']
  else if t = 11 then ['t','e','m','p','e','r','a','t','u','r','e']
  else ['l','e','n','g','t','h']

/-- The `INCOMPATIBLE_UNITS` arm of the interpreter's error reporting: it
re-resolves both original tokens through `get_unit_by_name` and prints the
type names of the two units.  A NULL unit pointer would be dereferenced; the
`Option.map` keeps the model total. -/
def incompatible_units_report (st : Sys) (tok1 tok2 : List Char) :
    Option (List Char) × Option (List Char) :=
  let r1 := get_unit_by_name st tok1 INPUT_UNIT
  let r2 := get_unit_by_name r1.2 tok2 OUTPUT_UNIT
  (r1.1.map (fun u => get_type_str u.unit_type),
   r2.1.map (fun u => get_type_str u.unit_type))

/-! ## Concrete fixtures

Small unit records and states used as concrete inputs by witnesses and
counterexamples.  The real catalog is loaded from an external `units.dat`
at run time; these fixtures only have to be values the loader could have
produced. -/

/-- A "meter"-like record: aliases `m`, `meter`; type LENGTH. -/
def meter : CUnit :=
  { unit_name := [['m'], ['m','e','t','e','r']]
    unit_type := 0
    conversion_factor := 1
    offset := 0 }

/-- An "inch"-like record with two aliases, `in` first (canonical), then
`inch`; type LENGTH. -/
def inch : CUnit :=
  { unit_name := [['i','n'], ['i','n','c','h']]
    unit_type := 0
    conversion_factor := 1 / 40
    offset := 0 }

/-- A "kilogram"-like record; type MASS. -/
def kilogram : CUnit :=
  { unit_name := [['k','g']]
    unit_type := 6
    conversion_factor := 1
    offset := 0 }

/-- A Celsius-like affine record; type TEMP, nonzero offset. -/
def celsius : CUnit :=
  { unit_name := [['C']]
    unit_type := 11
    conversion_factor := 1
    offset := 27315 / 100 }

/-- An affine record with factor 1 and offset 1 — both exactly
representable binary64 doubles, so the IEEE evaluation of a self-conversion
is governed purely by the rounding of the additions. -/
def affine_one : CUnit :=
  { unit_name := [['A']]
    unit_type := 0
    conversion_factor := 1
    offset := 1 }

/-- The state at program start: empty recall globals (C statics are
zero-initialised: NULL pointers, `last_number == 0.0`) over a given loaded
unit list. -/
def initial_state (us : List CUnit) : Sys :=
  { units := us
    last_input_unit := none
    last_output_unit := none
    last_number := DVal.finite 0
    last_input_name := none
    last_output_name := none }

/-- A reachable state where the input recall slot holds the meter record:
catalog `[meter]`, meter recalled on the input side. -/
def st_recall_meter : Sys :=
  { units := [meter]
    last_input_unit := some meter
    last_output_unit := none
    last_number := DVal.finite 0
    last_input_name := some ['m']
    last_output_name := none }

/-- The state after the input side of `convert 5 m m` on catalog `[meter]`
has been resolved. -/
def st_m_in : Sys :=
  { units := [meter]
    last_input_unit := some meter
    last_output_unit := none
    last_number := DVal.finite 5
    last_input_name := some ['m']
    last_output_name := none }

/-- The state after both sides of `convert 5 m m` on catalog `[meter]` have
been resolved. -/
def st_m_both : Sys :=
  { units := [meter]
    last_input_unit := some meter
    last_output_unit := some meter
    last_number := DVal.finite 5
    last_input_name := some ['m']
    last_output_name := some ['m'] }

/-- The state after the input side of `convert 5 m kg` on catalog
`[meter, kilogram]` has been resolved. -/
def st_mk_in : Sys :=
  { units := [meter, kilogram]
    last_input_unit := some meter
    last_output_unit := none
    last_number := DVal.finite 5
    last_input_name := some ['m']
    last_output_name := none }

/-- The state after both sides of `convert 5 m kg` on catalog
`[meter, kilogram]` have been resolved, just before the incompatibility
check fails. -/
def st_mk_both : Sys :=
  { units := [meter, kilogram]
    last_input_unit := some meter
    last_output_unit := some kilogram
    last_number := DVal.finite 5
    last_input_name := some ['m']
    last_output_name := some ['k','g'] }

/-! ## Helper lemmas about check_escape_sequences -/

/-- The escape parser never writes into the token buffer. -/
theorem esc_buf (s : List Char) (pfx0 : ℚ) :
    (check_escape_sequences s pfx0).buf = s := by
  unfold check_escape_sequences
  split_ifs <;> rfl

/-- The escape parser only ever leaves the string pointer where it was or
two characters further. -/
theorem esc_off (s : List Char) (pfx0 : ℚ) :
    (check_escape_sequences s pfx0).str_off = 0 ∨
      (check_escape_sequences s pfx0).str_off = 2 := by
  unfold check_escape_sequences
  split_ifs <;> simp

/-- Shape of the token on the two successful exits: unadvanced with a plain
token, advanced by two past a valid prefix with a nonempty non-recall rest. -/
theorem esc_error_zero (s : List Char) (pfx0 : ℚ)
    (h : (check_escape_sequences s pfx0).error = 0) :
    ((check_escape_sequences s pfx0).str_off = 0 ∧ rd s 0 ≠ ':' ∧ rd s 0 ≠ '_') ∨
    ((check_escape_sequences s pfx0).str_off = 2 ∧ rd s 0 = '_' ∧
      rd s 2 ≠ ':' ∧ rd s 2 ≠ NULL_CHAR) := by
  unfold check_escape_sequences at *
  split_ifs at h ⊢ <;> simp_all [EXIT_SUCCESS, NO_NAME_ALLOWED, RECALL_LAST,
    UNKNOWN_PREFIX, NO_NAME_GIVEN]

/-- Shape of the token on the recall exit: the pointer is unadvanced and the
token is `":"` or `"_c:"` with a valid prefix letter `c`. -/
theorem esc_recall (s : List Char) (pfx0 : ℚ)
    (h : (check_escape_sequences s pfx0).error = RECALL_LAST) :
    (check_escape_sequences s pfx0).str_off = 0 ∧
    ((rd s 0 = ':' ∧ rd s 1 = NULL_CHAR) ∨
     (rd s 0 = '_' ∧ rd s 2 = ':' ∧ rd s 3 = NULL_CHAR)) := by
  unfold check_escape_sequences at *
  split_ifs at h ⊢ <;> simp_all [EXIT_SUCCESS, NO_NAME_ALLOWED, RECALL_LAST,
    UNKNOWN_PREFIX, NO_NAME_GIVEN]

/-! ## Claims about the escape-sequence parser -/

/-- C9: the escape-sequence parser does not modify the token's character
contents: the buffer after the call is the buffer before it, the pointer is
moved at most forward past the prefix, and the caller's original token text
is the skipped characters followed by the adjusted view. -/
theorem c9_parser_preserves_token (s : List Char) (pfx0 : ℚ) :
    (check_escape_sequences s pfx0).buf = s ∧
    ((check_escape_sequences s pfx0).str_off = 0 ∨
      (check_escape_sequences s pfx0).str_off = 2) ∧
    s.take (check_escape_sequences s pfx0).str_off ++
      (check_escape_sequences s pfx0).buf.drop
        (check_escape_sequences s pfx0).str_off = s := by
  refine ⟨esc_buf s pfx0, esc_off s pfx0, ?_⟩
  rw [esc_buf s pfx0, List.take_append_drop]

/-- C3: the numeric validity check as implemented: written as
`(input == NAN) || (input == INFINITY)`, the NaN comparison is always false
in IEEE semantics, so NaN is let through; `-inf` also passes because it is
not `== INFINITY`; only `+inf` is rejected, and finite values (zero and
negative included) always pass.  The spec's intended behaviour (reject every
non-finite value) therefore does not hold: NaN and `-inf` proceed into the
conversion, witness the full run below on a catalog with one unit. -/
theorem c3_nonfinite_check_broken :
    numeric_check_rejects DVal.nan = false ∧
    numeric_check_rejects DVal.negInf = false ∧
    numeric_check_rejects DVal.posInf = true ∧
    numeric_check_rejects (DVal.finite 0) = false ∧
    numeric_check_rejects (DVal.finite (-5)) = false ∧
    (get_conversion (initial_state [meter])
        ⟨['n','a','n'], DVal.nan⟩ ['m'] ['m']).ret = EXIT_SUCCESS ∧
    (get_conversion (initial_state [meter])
        ⟨['i','n','f'], DVal.posInf⟩ ['m'] ['m']).ret = INVALID_INPUT := by
  refine ⟨rfl, rfl, rfl, by decide, by decide, by decide, by decide⟩

/-- C4: classification of unit tokens by the escape-sequence state machine,
case by case: unknown prefix letter after `'_'`; valid prefix with nothing
after it; a character after the recall `':'` (bare or prefixed); bare recall
with multiplier 1; prefixed recall with the prefix's multiplier; a plain
literal token returned untouched; a prefixed literal with the name advanced
past the prefix and the prefix's multiplier.  `hwf` says the token, being
the characters of a C string before its terminator, has no interior NUL. -/
theorem c4_escape_classification (t : List Char) (c : Char) (rest : List Char)
    (hwf : NULL_CHAR ∉ t) :
    (rd t 0 = '_' → get_prefix_value (rd t 1) < 0 →
      (check_escape_sequences t 1).error = UNKNOWN_PREFIX) ∧
    (t = ['_', c] → 0 ≤ get_prefix_value c →
      (check_escape_sequences t 1).error = NO_NAME_GIVEN) ∧
    (t = ':' :: rest → rest ≠ [] →
      (check_escape_sequences t 1).error = NO_NAME_ALLOWED) ∧
    (t = '_' :: c :: ':' :: rest → 0 ≤ get_prefix_value c → rest ≠ [] →
      (check_escape_sequences t 1).error = NO_NAME_ALLOWED) ∧
    (t = [':'] → check_escape_sequences t 1 = ⟨RECALL_LAST, 1, 0, t⟩) ∧
    (t = ['_', c, ':'] → 0 ≤ get_prefix_value c →
      check_escape_sequences t 1 = ⟨RECALL_LAST, get_prefix_value c, 0, t⟩) ∧
    (rd t 0 ≠ ':' → rd t 0 ≠ '_' →
      check_escape_sequences t 1 = ⟨EXIT_SUCCESS, 1, 0, t⟩) ∧
    (t = '_' :: c :: rest → 0 ≤ get_prefix_value c → rest ≠ [] →
      rd rest 0 ≠ ':' →
      check_escape_sequences t 1 = ⟨EXIT_SUCCESS, get_prefix_value c, 2, t⟩ ∧
        t.drop 2 = rest) := by
  constructor
  · intro h0 h1
    simp [check_escape_sequences, h0, h1, not_lt.mpr (le_of_lt h1)]
  constructor
  · intro ht hc
    subst ht
    simp [check_escape_sequences, rd, NULL_CHAR, not_lt.mpr hc]
  constructor
  · intro ht hr
    subst ht
    cases rest with
    | nil => exact absurd rfl hr
    | cons r rs =>
      have hrt : r ≠ NULL_CHAR := by
        intro h; exact hwf (by simp [h])
      simp [check_escape_sequences, rd, hrt]
  constructor
  · intro ht hc hr
    subst ht
    cases rest with
    | nil => exact absurd rfl hr
    | cons r rs =>
      have hrt : r ≠ NULL_CHAR := by
        intro h; exact hwf (by simp [h])
      simp [check_escape_sequences, rd, hrt, not_lt.mpr hc]
  constructor
  · intro ht
    subst ht
    decide
  constructor
  · intro ht hc
    subst ht
    simp [check_escape_sequences, rd, NULL_CHAR, not_lt.mpr hc, RECALL_LAST]
  constructor
  · intro h0 h1
    simp [check_escape_sequences, h0, h1, EXIT_SUCCESS]
  · intro ht hc hr hr0
    subst ht
    cases rest with
    | nil => exact absurd rfl hr
    | cons r rs =>
      have hrt : r ≠ NULL_CHAR := by
        intro h; exact hwf (by simp [h])
      have hr' : r ≠ ':' := by simpa [rd] using hr0
      constructor
      · simp [check_escape_sequences, rd, hrt, hr', not_lt.mpr hc, EXIT_SUCCESS]
      · simp

/-- Witness for C4: concrete tokens through each arm — `"_xm"` is an unknown
prefix, `"_k"` lacks a name, `":m"` forbids the name, `":"` recalls with
multiplier 1, `"_k:"` recalls with multiplier 1000, `"in"` is a plain
literal, and `"_km"` is a prefixed literal with name `"m"`. -/
theorem c4_witness :
    (check_escape_sequences ['_','x','m'] 1).error = UNKNOWN_PREFIX ∧
    (check_escape_sequences ['_','k'] 1).error = NO_NAME_GIVEN ∧
    (check_escape_sequences [':','m'] 1).error = NO_NAME_ALLOWED ∧
    check_escape_sequences [':'] 1 = ⟨RECALL_LAST, 1, 0, [':']⟩ ∧
    check_escape_sequences ['_','k',':'] 1 =
      ⟨RECALL_LAST, get_prefix_value 'k', 0, ['_','k',':']⟩ ∧
    check_escape_sequences ['i','n'] 1 = ⟨EXIT_SUCCESS, 1, 0, ['i','n']⟩ ∧
    check_escape_sequences ['_','k','m'] 1 =
      ⟨EXIT_SUCCESS, get_prefix_value 'k', 2, ['_','k','m']⟩ := by
  refine ⟨(c4_escape_classification ['_','x','m'] 'x' [] (by decide)).1
      (by decide) (by decide),
    (c4_escape_classification ['_','k'] 'k' [] (by decide)).2.1
      rfl (by decide),
    (c4_escape_classification [':','m'] 'k' ['m'] (by decide)).2.2.1
      rfl (by decide),
    (c4_escape_classification [':'] 'k' [] (by decide)).2.2.2.2.1 rfl,
    (c4_escape_classification ['_','k',':'] 'k' [] (by decide)).2.2.2.2.2.1
      rfl (by decide),
    (c4_escape_classification ['i','n'] 'k' [] (by decide)).2.2.2.2.2.2.1
      (by decide) (by decide),
    ((c4_escape_classification ['_','k','m'] 'k' ['m'] (by decide)).2.2.2.2.2.2.2
      rfl (by decide) (by decide) (by decide)).1⟩

/-! ## Helper lemmas about the unit list -/

/-- The alias scan misses exactly when no record of the list has a matching
alias. -/
theorem scan_units_eq_none_iff (l : List CUnit) (name : List Char) :
    scan_units l name = none ↔ ∀ u ∈ l, name ∉ u.unit_name := by
  induction l with
  | nil => simp [scan_units]
  | cons u rest ih =>
    by_cases h : u.unit_name.any (fun a => a = name)
    · simp only [scan_units, if_pos h]
      simp only [List.any_eq_true, decide_eq_true_eq] at h
      obtain ⟨a, ha, rfl⟩ := h
      constructor
      · intro hcontra
        exact absurd hcontra (Option.some_ne_none u)
      · intro hall
        exact absurd ha (hall u (List.mem_cons_self u rest))
    · simp only [scan_units, if_neg h, ih]
      simp only [List.any_eq_true, decide_eq_true_eq] at h
      push_neg at h
      constructor
      · intro hall v hv
        rcases List.mem_cons.mp hv with hv | hv
        · subst hv
          intro hmem
          exact h name hmem rfl
        · exact hall v hv
      · intro hall v hv
        exact hall v (by simp [hv])

/-- The scan returns the first record, in list order, that has a matching
alias. -/
theorem scan_units_first (l1 : List CUnit) (u : CUnit) (l2 : List CUnit)
    (name : List Char) (hu : name ∈ u.unit_name)
    (hmiss : ∀ v ∈ l1, name ∉ v.unit_name) :
    scan_units (l1 ++ u :: l2) name = some u := by
  induction l1 with
  | nil =>
    have : u.unit_name.any (fun a => a = name) := by
      simp only [List.any_eq_true, decide_eq_true_eq]
      exact ⟨name, hu, rfl⟩
    simp [scan_units, this]
  | cons v rest ih =>
    have hv : ¬ v.unit_name.any (fun a => a = name) := by
      simp only [List.any_eq_true, decide_eq_true_eq, not_exists]
      intro a ha
      obtain ⟨ha1, ha2⟩ := ha
      subst ha2
      exact hmiss v (by simp) ha1
    simp only [List.cons_append, scan_units, if_neg hv]
    exact ih (fun w hw => hmiss w (by simp [hw]))

/-- `add_unit` at index `length l` appends at the end of the list. -/
theorem add_unit_append (u : CUnit) (l : List CUnit) :
    add_unit u (l.length : Int) l = some (l ++ [u]) := by
  induction l with
  | nil => rfl
  | cons x xs ih =>
    have hne : ((xs.length : Int) + 1) ≠ 0 := by positivity
    simp only [List.length_cons, add_unit]
    push_cast
    rw [if_neg hne]
    simp only [add_sub_cancel_right, ih, Option.map_some]
    rfl

/-- Replaying the registration loop of LoadConfig.c (append each unit at
index `end_of_list++`, starting empty) reproduces the units in load
order. -/
theorem load_all_eq (us : List CUnit) : load_all us = us := by
  suffices h : ∀ (ws : List CUnit) (acc : List CUnit),
      (ws.foldl
        (fun (a : List CUnit × Int) u =>
          match add_unit u a.2 a.1 with
          | some l => (l, a.2 + 1)
          | none => (a.1, a.2 + 1))
        (acc, (acc.length : Int))).1 = acc ++ ws by
    simpa [load_all] using h us []
  intro ws
  induction ws with
  | nil => simp
  | cons u rest ih =>
    intro acc
    simp only [List.foldl_cons, add_unit_append]
    have : ((acc.length : Int) + 1) = ((acc ++ [u]).length : Int) := by
      simp
    rw [this, ih (acc ++ [u])]
    simp

/-! ## Claim C5: catalog lookup -/

/-- Counterexample to C5 as stated: for the name string `":"` the lookup
returns a record (the recalled meter) although no record of the catalog has
the alias `":"` — so over arbitrary name strings the lookup is not an exact
alias match returning not-found exactly on no matching alias.  (The `":"`
and `"_"`-led names are the escape forms the function handles specially.) -/
theorem c5_counterexample :
    (get_unit_by_name st_recall_meter [':'] INPUT_UNIT).1 = some meter ∧
    (∀ u ∈ st_recall_meter.units, [':'] ∉ u.unit_name) := by
  constructor
  · decide
  · decide

/-- C5 (amended): for every name string beginning with neither `'_'` nor
`':'` — names beginning with `'_'` have two characters stripped first, and
a then-leading `':'` is a recall lookup — the lookup is an exact,
case-sensitive match of the name against every alias of every record in
list order: the result is the scan's first hit, it is not-found exactly
when no record has a matching alias, the first-registered record wins when
several share an alias, and registration via `add_unit` at successive end
indices keeps load order, so list order is registration order. -/
theorem c5_amended (st : Sys) (name : List Char) (which : Int)
    (h0 : rd name 0 ≠ '_') (h1 : rd name 0 ≠ ':') :
    (get_unit_by_name st name which).1 = scan_units st.units name ∧
    ((get_unit_by_name st name which).1 = none ↔
      ∀ u ∈ st.units, name ∉ u.unit_name) ∧
    (∀ l1 u l2, st.units = l1 ++ u :: l2 → name ∈ u.unit_name →
      (∀ v ∈ l1, name ∉ v.unit_name) →
      (get_unit_by_name st name which).1 = some u) ∧
    (∀ us : List CUnit, load_all us = us) := by
  have hmain : (get_unit_by_name st name which).1 = scan_units st.units name := by
    simp only [get_unit_by_name, stripped_name, if_neg h0, if_neg h1]
    cases hscan : scan_units st.units name with
    | none => simp
    | some u => by_cases hw : which = INPUT_UNIT <;> simp [hw]
  refine ⟨hmain, ?_, ?_, load_all_eq⟩
  · rw [hmain, scan_units_eq_none_iff]
  · intro l1 u l2 hsplit hu hmiss
    rw [hmain, hsplit]
    exact scan_units_first l1 u l2 name hu hmiss

/-- Witness for C5 (amended): the name `"kg"` in the catalog
`[meter, kilogram]` resolves to the kilogram record, first match in load
order. -/
theorem c5_witness :
    (get_unit_by_name (initial_state [meter, kilogram]) ['k','g']
      INPUT_UNIT).1 = some kilogram := by
  have h := (c5_amended (initial_state [meter, kilogram]) ['k','g']
    INPUT_UNIT (by decide) (by decide)).2.2.1
  exact h [meter] kilogram [] rfl (by decide) (by decide)

/-! ## Helper lemmas about get_unit_by_name's state effect -/

/-- Reading after a drop reads further along the original string. -/
theorem rd_drop (s : List Char) (n i : Nat) : rd (s.drop n) i = rd s (n + i) := by
  simp [rd, List.getD_eq_getElem?_getD, List.getElem?_drop]

/-- Recall lookups return the selected slot and leave the state alone. -/
theorem gubn_recall (st : Sys) (name : List Char) (which : Int)
    (h : rd (stripped_name name) 0 = ':') :
    get_unit_by_name st name which =
      ((if which = INPUT_UNIT then st.last_input_unit else st.last_output_unit),
        st) := by
  by_cases hw : which = INPUT_UNIT <;> simp [get_unit_by_name, h, hw]

/-- Non-recall lookups return the scan's result and, on a hit, overwrite
exactly the selected slot. -/
theorem gubn_scan (st : Sys) (name : List Char) (which : Int)
    (h : rd (stripped_name name) 0 ≠ ':') :
    get_unit_by_name st name which =
      match scan_units st.units (stripped_name name) with
      | some u =>
          (some u, if which = INPUT_UNIT then { st with last_input_unit := some u }
                   else { st with last_output_unit := some u })
      | none => (none, st) := by
  cases hscan : scan_units st.units (stripped_name name) with
  | none => simp [get_unit_by_name, h, hscan]
  | some u => by_cases hw : which = INPUT_UNIT <;> simp [get_unit_by_name, h, hscan, hw]

/-- A lookup that returns no unit leaves the state exactly as it was. -/
theorem gubn_none (st : Sys) (name : List Char) (which : Int)
    (h : (get_unit_by_name st name which).1 = none) :
    (get_unit_by_name st name which).2 = st := by
  by_cases hrec : rd (stripped_name name) 0 = ':'
  · rw [gubn_recall st name which hrec]
  · cases hscan : scan_units st.units (stripped_name name) with
    | none => rw [gubn_scan st name which hrec, hscan]
    | some u =>
      rw [gubn_scan st name which hrec, hscan] at h
      simp at h

/-- The fields a lookup can never touch: the unit list, the recall number,
the recall name strings, and the slot of the other side. -/
theorem gubn_frame (st : Sys) (name : List Char) (which : Int) :
    (get_unit_by_name st name which).2.units = st.units ∧
    (get_unit_by_name st name which).2.last_number = st.last_number ∧
    (get_unit_by_name st name which).2.last_input_name = st.last_input_name ∧
    (get_unit_by_name st name which).2.last_output_name = st.last_output_name ∧
    (which = INPUT_UNIT →
      (get_unit_by_name st name which).2.last_output_unit = st.last_output_unit) ∧
    (which ≠ INPUT_UNIT →
      (get_unit_by_name st name which).2.last_input_unit = st.last_input_unit) := by
  by_cases hrec : rd (stripped_name name) 0 = ':'
  · rw [gubn_recall st name which hrec]
    simp
  · rw [gubn_scan st name which hrec]
    cases hscan : scan_units st.units (stripped_name name) with
    | none => simp
    | some u => by_cases hw : which = INPUT_UNIT <;> simp [hw]

/-- A lookup that returns a unit leaves the selected slot holding exactly
that unit (by overwriting it, or, on the recall path, because it already
held it). -/
theorem gubn_found_slot (st : Sys) (name : List Char) (which : Int) (u : CUnit)
    (h : (get_unit_by_name st name which).1 = some u) :
    (which = INPUT_UNIT →
      (get_unit_by_name st name which).2.last_input_unit = some u) ∧
    (which ≠ INPUT_UNIT →
      (get_unit_by_name st name which).2.last_output_unit = some u) := by
  by_cases hrec : rd (stripped_name name) 0 = ':'
  · rw [gubn_recall st name which hrec] at h ⊢
    by_cases hw : which = INPUT_UNIT <;> simp_all
  · cases hscan : scan_units st.units (stripped_name name) with
    | none =>
      rw [gubn_scan st name which hrec, hscan] at h
      simp at h
    | some v =>
      rw [gubn_scan st name which hrec, hscan] at h ⊢
      have hvu : v = u := by simpa using h
      subst hvu
      by_cases hw : which = INPUT_UNIT <;> simp [hw]

/-! ## Helper lemmas about resolve_side -/

/-- `post_number_state` touches only the recall number. -/
theorem post_number_fields (st0 : Sys) (number : NumberArg) :
    (post_number_state st0 number).units = st0.units ∧
    (post_number_state st0 number).last_input_unit = st0.last_input_unit ∧
    (post_number_state st0 number).last_output_unit = st0.last_output_unit ∧
    (post_number_state st0 number).last_input_name = st0.last_input_name ∧
    (post_number_state st0 number).last_output_name = st0.last_output_name ∧
    (post_number_state st0 number).last_number = effective_input st0 number := by
  unfold post_number_state effective_input
  split_ifs <;> simp

/-- Every error exit of a side resolution leaves the state exactly as it
was: the escape-parser errors return before any lookup, a failed lookup does
not write, and the recall-unset path went through a recall lookup. -/
theorem resolve_err_state (st : Sys) (tok : List Char) (which : Int)
    (e : Int) (st' : Sys)
    (h : resolve_side st tok which = Except.error (e, st')) : st' = st := by
  simp only [resolve_side] at h
  by_cases hrc : (check_escape_sequences tok 1).error = RECALL_LAST
  · rw [if_pos hrc] at h
    rcases hg : get_unit_by_name st
      ((check_escape_sequences tok 1).buf.drop
        (check_escape_sequences tok 1).str_off) which with ⟨o, st2⟩
    rw [hg] at h
    cases o with
    | none =>
      simp only [Except.error.injEq, Prod.mk.injEq] at h
      have h2 := gubn_none st _ which (by rw [hg])
      rw [hg] at h2
      rw [← h.2]
      simpa using h2
    | some u => simp at h
  · rw [if_neg hrc] at h
    by_cases hz : (check_escape_sequences tok 1).error ≠ 0
    · rw [if_pos hz] at h
      simp only [Except.error.injEq, Prod.mk.injEq] at h
      exact h.2.symm
    · rw [if_neg hz] at h
      rcases hg : get_unit_by_name st
        ((check_escape_sequences tok 1).buf.drop
          (check_escape_sequences tok 1).str_off) which with ⟨o, st2⟩
      rw [hg] at h
      cases o with
      | none =>
        simp only [Except.error.injEq, Prod.mk.injEq] at h
        have h2 := gubn_none st _ which (by rw [hg])
        rw [hg] at h2
        rw [← h.2]
        simpa using h2
      | some u =>
        by_cases hw : which = INPUT_UNIT <;> simp [hw] at h

/-- The error code of a failed side resolution is never 0: it is the
escape-parser's nonzero code, `UNIT_NF`, or `RECALL_UNSET`. -/
theorem resolve_err_ne_zero (st : Sys) (tok : List Char) (which : Int)
    (e : Int) (st' : Sys)
    (h : resolve_side st tok which = Except.error (e, st')) : e ≠ 0 := by
  simp only [resolve_side] at h
  by_cases hrc : (check_escape_sequences tok 1).error = RECALL_LAST
  · rw [if_pos hrc] at h
    rcases hg : get_unit_by_name st
      ((check_escape_sequences tok 1).buf.drop
        (check_escape_sequences tok 1).str_off) which with ⟨o, st2⟩
    rw [hg] at h
    cases o with
    | none =>
      simp only [Except.error.injEq, Prod.mk.injEq] at h
      rw [← h.1]
      decide
    | some u => simp at h
  · rw [if_neg hrc] at h
    by_cases hz : (check_escape_sequences tok 1).error ≠ 0
    · rw [if_pos hz] at h
      simp only [Except.error.injEq, Prod.mk.injEq] at h
      rw [← h.1]
      exact hz
    · rw [if_neg hz] at h
      rcases hg : get_unit_by_name st
        ((check_escape_sequences tok 1).buf.drop
          (check_escape_sequences tok 1).str_off) which with ⟨o, st2⟩
      rw [hg] at h
      cases o with
      | none =>
        simp only [Except.error.injEq, Prod.mk.injEq] at h
        rw [← h.1]
        decide
      | some u =>
        by_cases hw : which = INPUT_UNIT <;> simp [hw] at h

/-- What a successful side resolution does to the state: the unit list and
the recall number are untouched; a recall resolution (flag `true`) changes
nothing and found the unit already in the selected slot; a lookup
resolution leaves the selected slot and the selected recall-name holding
the resolved unit, the other side's fields untouched. -/
theorem resolve_ok_state (st : Sys) (tok : List Char) (which : Int)
    (p : ℚ) (u : CUnit) (b : Bool) (st' : Sys)
    (h : resolve_side st tok which = Except.ok (p, u, b, st')) :
    st'.units = st.units ∧
    st'.last_number = st.last_number ∧
    (b = true → st' = st) ∧
    (which = INPUT_UNIT →
      st'.last_input_unit = some u ∧
      st'.last_output_unit = st.last_output_unit ∧
      st'.last_output_name = st.last_output_name) ∧
    (which ≠ INPUT_UNIT →
      st'.last_output_unit = some u ∧
      st'.last_input_unit = st.last_input_unit ∧
      st'.last_input_name = st.last_input_name) := by
  simp only [resolve_side] at h
  by_cases hrc : (check_escape_sequences tok 1).error = RECALL_LAST
  · rw [if_pos hrc] at h
    rcases hg : get_unit_by_name st
      ((check_escape_sequences tok 1).buf.drop
        (check_escape_sequences tok 1).str_off) which with ⟨o, st2⟩
    rw [hg] at h
    cases o with
    | none => simp at h
    | some v =>
      simp only [Except.ok.injEq, Prod.mk.injEq] at h
      obtain ⟨-, hvu, hb, hst⟩ := h
      obtain ⟨hoff, hshape⟩ := esc_recall tok 1 hrc
      have hview : (check_escape_sequences tok 1).buf.drop
          (check_escape_sequences tok 1).str_off = tok := by
        rw [esc_buf, hoff]
        rfl
      rw [hview] at hg
      have hstr : rd (stripped_name tok) 0 = ':' := by
        rcases hshape with ⟨h1, -⟩ | ⟨h1, h2, -⟩
        · have : rd tok 0 ≠ '_' := by rw [h1]; decide
          simp [stripped_name, this, h1]
        · simp [stripped_name, h1, rd_drop, h2]
      rw [gubn_recall st tok which hstr] at hg
      simp only [Prod.mk.injEq] at hg
      obtain ⟨hslot, hst2⟩ := hg
      subst hst
      subst hst2
      refine ⟨rfl, rfl, fun _ => rfl, ?_, ?_⟩
      · intro hw
        rw [if_pos hw] at hslot
        exact ⟨by rw [hslot, hvu], rfl, rfl⟩
      · intro hw
        rw [if_neg hw] at hslot
        exact ⟨by rw [hslot, hvu], rfl, rfl⟩
  · rw [if_neg hrc] at h
    by_cases hz : (check_escape_sequences tok 1).error ≠ 0
    · rw [if_pos hz] at h
      simp at h
    · rw [if_neg hz] at h
      rcases hg : get_unit_by_name st
        ((check_escape_sequences tok 1).buf.drop
          (check_escape_sequences tok 1).str_off) which with ⟨o, st2⟩
      rw [hg] at h
      cases o with
      | none => simp at h
      | some v =>
        have hfound := gubn_found_slot st
          ((check_escape_sequences tok 1).buf.drop
            (check_escape_sequences tok 1).str_off) which v (by rw [hg])
        have hframe := gubn_frame st
          ((check_escape_sequences tok 1).buf.drop
            (check_escape_sequences tok 1).str_off) which
        rw [hg] at hfound hframe
        simp only at hfound hframe
        by_cases hw : which = INPUT_UNIT
        · simp only [if_pos hw, Except.ok.injEq, Prod.mk.injEq] at h
          obtain ⟨-, hvu, hb, hst⟩ := h
          subst hst
          refine ⟨hframe.1, hframe.2.1,
            fun hbt => absurd (hb.trans hbt) (by decide),
            fun _ => ?_, fun hww => absurd hw hww⟩
          refine ⟨?_, hframe.2.2.2.2.1 hw, hframe.2.2.2.1⟩
          rw [← hvu]
          exact hfound.1 hw
        · simp only [if_neg hw, Except.ok.injEq, Prod.mk.injEq] at h
          obtain ⟨-, hvu, hb, hst⟩ := h
          subst hst
          refine ⟨hframe.1, hframe.2.1,
            fun hbt => absurd (hb.trans hbt) (by decide),
            fun hww => absurd hww hw, fun _ => ?_⟩
          refine ⟨?_, hframe.2.2.2.2.2 hw, hframe.2.2.1⟩
          rw [← hvu]
          exact hfound.2 hw

/-! ## Helper lemmas about get_conversion's paths -/

/-- The success path of `get_conversion`, in full: with a finite effective
input, both sides resolving and matching unit types, the call returns 0 and
writes exactly the conversion formula, leaving the state of the second
resolution. -/
theorem conv_success_eq (st0 : Sys) (number : NumberArg)
    (iname oname : List Char) (x ipfx opfx : ℚ) (iu ou : CUnit)
    (bi bo : Bool) (sti sto : Sys)
    (hx : effective_input st0 number = DVal.finite x)
    (hin : resolve_side (post_number_state st0 number) iname INPUT_UNIT =
      Except.ok (ipfx, iu, bi, sti))
    (hout : resolve_side sti oname OUTPUT_UNIT =
      Except.ok (opfx, ou, bo, sto))
    (hty : iu.unit_type = ou.unit_type) :
    get_conversion st0 number iname oname =
      ⟨EXIT_SUCCESS, some (DVal.finite
        (((x * ipfx + iu.offset) *
          (iu.conversion_factor / ou.conversion_factor) - ou.offset) / opfx)),
        sto⟩ := by
  have hnum : numeric_check_rejects (effective_input st0 number) = false := by
    rw [hx]; rfl
  have hnumx : numeric_check_rejects (DVal.finite x) = false := rfl
  simp only [get_conversion, hnum, hnumx, Bool.false_eq_true, if_false, hin,
    hout, hty, ne_eq, not_true_eq_false, hx, dformula]

/-- The incompatibility path of `get_conversion`, in full: with the numeric
check passed and both sides resolving to units of different types, the call
returns `INCOMPATIBLE_UNITS`, writes nothing, and leaves the state of the
second resolution. -/
theorem conv_incompatible_eq (st0 : Sys) (number : NumberArg)
    (iname oname : List Char) (ipfx opfx : ℚ) (iu ou : CUnit)
    (bi bo : Bool) (sti sto : Sys)
    (hnum : numeric_check_rejects (effective_input st0 number) = false)
    (hin : resolve_side (post_number_state st0 number) iname INPUT_UNIT =
      Except.ok (ipfx, iu, bi, sti))
    (hout : resolve_side sti oname OUTPUT_UNIT =
      Except.ok (opfx, ou, bo, sto))
    (hty : iu.unit_type ≠ ou.unit_type) :
    get_conversion st0 number iname oname =
      ⟨INCOMPATIBLE_UNITS, none, sto⟩ := by
  simp only [get_conversion, hnum, Bool.false_eq_true, if_false, hin, hout,
    ne_eq, hty, not_false_eq_true, if_true]

/-- Across every path of `get_conversion`, the final recall number is the
effective input of the call (so it is overwritten whenever the number text
does not begin with `':'`, even when the call fails), and the unit list is
untouched. -/
theorem conv_state_frame (st0 : Sys) (number : NumberArg)
    (iname oname : List Char) :
    (get_conversion st0 number iname oname).st.last_number =
      effective_input st0 number ∧
    (get_conversion st0 number iname oname).st.units = st0.units := by
  have hpn := post_number_fields st0 number
  simp only [get_conversion]
  by_cases hnum : numeric_check_rejects (effective_input st0 number)
  · simp only [hnum, if_true]
    exact ⟨hpn.2.2.2.2.2, hpn.1⟩
  · simp only [hnum, Bool.false_eq_true, if_false]
    rcases hres : resolve_side (post_number_state st0 number) iname
        INPUT_UNIT with ⟨e, st2⟩ | ⟨p, iu, bi, st2⟩
    · have h2 := resolve_err_state _ _ _ _ _ hres
      simp only [hres]
      subst h2
      exact ⟨hpn.2.2.2.2.2, hpn.1⟩
    · have h2 := resolve_ok_state _ _ _ _ _ _ _ hres
      simp only [hres]
      rcases hres2 : resolve_side st2 oname OUTPUT_UNIT
          with ⟨e2, st3⟩ | ⟨p2, ou, bo, st3⟩
      · have h3 := resolve_err_state _ _ _ _ _ hres2
        simp only [hres2]
        subst h3
        exact ⟨h2.2.1.trans hpn.2.2.2.2.2, h2.1.trans hpn.1⟩
      · have h3 := resolve_ok_state _ _ _ _ _ _ _ hres2
        simp only [hres2]
        by_cases hty : iu.unit_type ≠ ou.unit_type
        · simp only [ne_eq, hty, not_false_eq_true, if_true]
          exact ⟨(h3.2.1.trans h2.2.1).trans hpn.2.2.2.2.2,
            (h3.1.trans h2.1).trans hpn.1⟩
        · simp only [ne_eq, hty, if_false]
          exact ⟨(h3.2.1.trans h2.2.1).trans hpn.2.2.2.2.2,
            (h3.1.trans h2.1).trans hpn.1⟩

/-- Re-resolving a token that already resolved successfully, in a later
state with the same unit list and the resolved unit in the selected slot,
finds the same unit and no longer changes the state.  The side condition
`hc` excludes tokens whose name part itself begins with `'_'` (there the
second lookup would strip two further characters). -/
theorem gubn_again (st : Sys) (tok : List Char) (which : Int)
    (p : ℚ) (u : CUnit) (b : Bool) (st' st'' : Sys)
    (h : resolve_side st tok which = Except.ok (p, u, b, st'))
    (hc : (check_escape_sequences tok 1).error = RECALL_LAST ∨
      rd (tok.drop (check_escape_sequences tok 1).str_off) 0 ≠ '_')
    (hu : st''.units = st.units)
    (hs : (if which = INPUT_UNIT then st''.last_input_unit
           else st''.last_output_unit) = some u) :
    get_unit_by_name st'' tok which = (some u, st'') := by
  by_cases hrc : (check_escape_sequences tok 1).error = RECALL_LAST
  · -- recall resolution: the token is ":" or "_c:", the lookup reads the slot
    obtain ⟨hoff, hshape⟩ := esc_recall tok 1 hrc
    have hstr : rd (stripped_name tok) 0 = ':' := by
      rcases hshape with ⟨h1, -⟩ | ⟨h1, h2, -⟩
      · have hne : rd tok 0 ≠ '_' := by rw [h1]; decide
        simp [stripped_name, hne, h1]
      · simp [stripped_name, h1, rd_drop, h2]
    rw [gubn_recall st'' tok which hstr, hs]
  · -- literal resolution: the scan found the unit; it finds it again
    simp only [resolve_side] at h
    rw [if_neg hrc] at h
    by_cases hz : (check_escape_sequences tok 1).error ≠ 0
    · rw [if_pos hz] at h
      simp at h
    · rw [if_neg hz] at h
      push_neg at hz
      rcases hg : get_unit_by_name st
        ((check_escape_sequences tok 1).buf.drop
          (check_escape_sequences tok 1).str_off) which with ⟨o, st2⟩
      rw [hg] at h
      cases o with
      | none => simp at h
      | some v =>
        have hvu : v = u := by
          by_cases hw : which = INPUT_UNIT <;>
            simp only [if_pos, if_neg, hw, reduceIte, Except.ok.injEq,
              Prod.mk.injEq] at h <;> exact h.2.1
        subst hvu
        rw [esc_buf] at hg
        rcases esc_error_zero tok 1 hz with ⟨ho, hc1, hc2⟩ | ⟨ho, hc1, hc2, hc3⟩
        · -- plain token, pointer unadvanced: the name is the whole token
          rw [ho, List.drop_zero] at hg
          have hstr : rd (stripped_name tok) 0 ≠ ':' := by
            simpa [stripped_name, hc2] using hc1
          rw [gubn_scan st tok which hstr] at hg
          have hscan : scan_units st.units (stripped_name tok) = some v := by
            cases hscan : scan_units st.units (stripped_name tok) with
            | none => rw [hscan] at hg; simp at hg
            | some w => rw [hscan] at hg; simpa using congrArg Prod.fst hg
          rw [gubn_scan st'' tok which hstr]
          have hscan'' : scan_units st''.units (stripped_name tok) = some v := by
            rw [hu, hscan]
          rw [hscan'']
          by_cases hw : which = INPUT_UNIT
          · rw [if_pos hw] at hs
            have hrec : ({ st'' with last_input_unit := some v } : Sys) = st'' := by
              rw [← hs]
            simp only [if_pos hw, hrec]
          · rw [if_neg hw] at hs
            have hrec : ({ st'' with last_output_unit := some v } : Sys) = st'' := by
              rw [← hs]
            simp only [if_neg hw, hrec]
        · -- prefixed token, pointer advanced by two: both lookups use the rest
          rcases hc with hc | hc
          · exact absurd hc hrc
          rw [ho] at hg hc
          have hstr : rd (stripped_name tok) 0 ≠ ':' := by
            have : rd (tok.drop 2) 0 ≠ ':' := by
              rw [rd_drop]
              exact hc2
            simpa [stripped_name, hc1] using this
          have hdropstr : stripped_name tok = tok.drop 2 := by
            simp [stripped_name, hc1]
          have hstr2 : rd (stripped_name (tok.drop 2)) 0 ≠ ':' := by
            have : rd (tok.drop 2) 0 ≠ ':' := by
              rw [rd_drop]
              exact hc2
            simpa [stripped_name, hc] using this
          rw [gubn_scan st (tok.drop 2) which hstr2] at hg
          have hds : stripped_name (tok.drop 2) = tok.drop 2 := by
            simp [stripped_name, hc]
          rw [hds] at hg
          have hscan : scan_units st.units (tok.drop 2) = some v := by
            cases hscan : scan_units st.units (tok.drop 2) with
            | none => rw [hscan] at hg; simp at hg
            | some w => rw [hscan] at hg; simpa using congrArg Prod.fst hg
          rw [gubn_scan st'' tok which hstr, hdropstr]
          have hscan'' : scan_units st''.units (tok.drop 2) = some v := by
            rw [hu, hscan]
          rw [hscan'']
          by_cases hw : which = INPUT_UNIT
          · rw [if_pos hw] at hs
            have hrec : ({ st'' with last_input_unit := some v } : Sys) = st'' := by
              rw [← hs]
            simp only [if_pos hw, hrec]
          · rw [if_neg hw] at hs
            have hrec : ({ st'' with last_output_unit := some v } : Sys) = st'' := by
              rw [← hs]
            simp only [if_neg hw, hrec]

/-- C1: every successful conversion returns exactly
`((x * input_multiplier + input_offset) * (input_factor / output_factor)
- output_offset) / output_multiplier` for the parsed value `x`, the two
prefix multipliers and the two resolved units, with the operations in
exactly that order: the input prefix multiplies the raw value before the
input offset is added, and the output offset is subtracted before dividing
by the output prefix. -/
theorem c1_conversion_formula (st0 : Sys) (number : NumberArg)
    (iname oname : List Char) (x ipfx opfx : ℚ) (iu ou : CUnit)
    (bi bo : Bool) (sti sto : Sys)
    (hx : effective_input st0 number = DVal.finite x)
    (hin : resolve_side (post_number_state st0 number) iname INPUT_UNIT =
      Except.ok (ipfx, iu, bi, sti))
    (hout : resolve_side sti oname OUTPUT_UNIT =
      Except.ok (opfx, ou, bo, sto))
    (hty : iu.unit_type = ou.unit_type) :
    get_conversion st0 number iname oname =
      ⟨EXIT_SUCCESS, some (DVal.finite
        (((x * ipfx + iu.offset) *
          (iu.conversion_factor / ou.conversion_factor) - ou.offset) / opfx)),
        sto⟩ :=
  conv_success_eq st0 number iname oname x ipfx opfx iu ou bi bo sti sto
    hx hin hout hty

/-- Witness for C1: the conversion `5 m m` on the catalog `[meter]` returns
the formula's value with both multipliers 1 and both units the meter
record. -/
theorem c1_witness :
    get_conversion (initial_state [meter]) ⟨['5'], DVal.finite 5⟩
        ['m'] ['m'] =
      ⟨EXIT_SUCCESS, some (DVal.finite
        (((5 * 1 + meter.offset) *
          (meter.conversion_factor / meter.conversion_factor) -
          meter.offset) / 1)), st_m_both⟩ :=
  c1_conversion_formula (initial_state [meter]) ⟨['5'], DVal.finite 5⟩
    ['m'] ['m'] 5 1 1 meter meter false false st_m_in st_m_both
    rfl rfl rfl rfl

/-- Resolving a plain token (no leading `'_'` or `':'`) that the scan finds:
multiplier 1, unit from the scan, recall name of the side set to the token.
-/
theorem resolve_plain (st : Sys) (tok : List Char) (which : Int) (u : CUnit)
    (h0 : rd tok 0 ≠ ':') (h1 : rd tok 0 ≠ '_')
    (hscan : scan_units st.units tok = some u) :
    resolve_side st tok which = Except.ok (1, u, false,
      if which = INPUT_UNIT then
        { st with last_input_unit := some u, last_input_name := some tok }
      else
        { st with last_output_unit := some u, last_output_name := some tok }) := by
  have hesc : check_escape_sequences tok 1 = ⟨EXIT_SUCCESS, 1, 0, tok⟩ := by
    simp [check_escape_sequences, h0, h1]
  have hstr : rd (stripped_name tok) 0 ≠ ':' := by
    simpa [stripped_name, h1] using h0
  have hscan' : scan_units st.units (stripped_name tok) = some u := by
    simpa [stripped_name, h1] using hscan
  simp only [resolve_side, hesc, List.drop_zero]
  rw [gubn_scan st tok which hstr, hscan']
  by_cases hw : which = INPUT_UNIT <;>
    simp [hw, EXIT_SUCCESS, RECALL_LAST, UNIT_NF]

/-- C7 (amended): converting a finite value from a plain-named unit to
itself returns the value exactly when the unit's offset is zero and its
factor nonzero.  For zero offset every step of the source's IEEE double
evaluation is exact (x*1, x+0, f/f = 1, x*1, x-0, x/1), so the rational
model is faithful here; for nonzero (affine) offsets exactness holds only
in ideal arithmetic and fails under binary64 rounding, see the
counterexample below. -/
theorem c7_same_unit_identity (st0 : Sys) (number : NumberArg)
    (tok : List Char) (x : ℚ) (u : CUnit)
    (hx : effective_input st0 number = DVal.finite x)
    (h0 : rd tok 0 ≠ ':') (h1 : rd tok 0 ≠ '_')
    (hfind : scan_units st0.units tok = some u)
    (hf : u.conversion_factor ≠ 0)
    (ho : u.offset = 0) :
    (get_conversion st0 number tok tok).ret = EXIT_SUCCESS ∧
    (get_conversion st0 number tok tok).conversion =
      some (DVal.finite x) := by
  have hpn := post_number_fields st0 number
  have hin : resolve_side (post_number_state st0 number) tok INPUT_UNIT =
      Except.ok (1, u, false,
        { post_number_state st0 number with
            last_input_unit := some u, last_input_name := some tok }) := by
    rw [resolve_plain (post_number_state st0 number) tok INPUT_UNIT u h0 h1
      (by rw [hpn.1]; exact hfind)]
    simp
  have hout : resolve_side
      ({ post_number_state st0 number with
          last_input_unit := some u, last_input_name := some tok })
      tok OUTPUT_UNIT =
      Except.ok (1, u, false,
        { post_number_state st0 number with
            last_input_unit := some u, last_input_name := some tok,
            last_output_unit := some u, last_output_name := some tok }) := by
    rw [resolve_plain _ tok OUTPUT_UNIT u h0 h1 (by rw [hpn.1]; exact hfind)]
    simp [OUTPUT_UNIT, INPUT_UNIT]
  have heq := conv_success_eq st0 number tok tok x 1 1 u u false false
    _ _ hx hin hout rfl
  rw [heq]
  have harith : ((x * 1 + u.offset) *
      (u.conversion_factor / u.conversion_factor) - u.offset) / 1 = x := by
    rw [ho, div_self hf]
    ring
  rw [harith]
  exact ⟨rfl, rfl⟩

/-- Witness for C7 (amended): converting 5 from the zero-offset meter record
to itself on the catalog `[meter]` succeeds and returns exactly 5. -/
theorem c7_witness :
    (get_conversion (initial_state [meter]) ⟨['5'], DVal.finite 5⟩
      ['m'] ['m']).ret = EXIT_SUCCESS ∧
    (get_conversion (initial_state [meter]) ⟨['5'], DVal.finite 5⟩
      ['m'] ['m']).conversion = some (DVal.finite 5) :=
  c7_same_unit_identity (initial_state [meter]) ⟨['5'], DVal.finite 5⟩
    ['m'] 5 meter rfl (by decide) (by decide) rfl (by norm_num [meter])
    (by norm_num [meter])

/-- Rounding an integer changes nothing. -/
theorem round_even_intCast (n : ℤ) : round_even (n : ℚ) = n := by
  unfold round_even
  rw [Int.floor_intCast]
  norm_num

theorem fl_zero : fl 0 = 0 := by simp [fl]

/-- Every power of two is an exactly representable double. -/
theorem fl_zpow (z : ℤ) : fl ((2:ℚ) ^ z) = (2:ℚ) ^ z := by
  have hpos : (0:ℚ) < (2:ℚ) ^ z := zpow_pos (by norm_num) z
  have hne : ((2:ℚ) ^ z) ≠ 0 := ne_of_gt hpos
  have hlog : Int.log 2 |(2:ℚ) ^ z| = z := by
    rw [abs_of_pos hpos]
    have h := Int.log_zpow (R := ℚ) (b := 2) (by norm_num) z
    simpa using h
  unfold fl
  rw [if_neg hne, hlog]
  have hmul : (2:ℚ) ^ z * 2 ^ ((52:ℤ) - z) = (2:ℚ) ^ (52:ℤ) := by
    rw [← zpow_add₀ (by norm_num : (2:ℚ) ≠ 0)]
    congr 1
    ring
  have h52 : (2:ℚ) ^ (52:ℤ) = ((2 ^ 52 : ℤ) : ℚ) := by
    push_cast
    norm_num
  rw [hmul, h52, round_even_intCast, ← h52,
    ← zpow_add₀ (by norm_num : (2:ℚ) ≠ 0)]
  congr 1
  ring

theorem fl_one : fl 1 = 1 := by
  have h := fl_zpow 0
  simpa using h

/-- The key rounding event of the counterexample: `1 + 2^-53` lies exactly
halfway between the consecutive doubles `1` and `1 + 2^-52`, and ties-to-
even rounds it down to 1 — the added term is lost. -/
theorem fl_one_add : fl (1 + (2:ℚ) ^ (-53 : ℤ)) = 1 := by
  have hεpos : (0:ℚ) < (2:ℚ) ^ (-53 : ℤ) := zpow_pos (by norm_num) _
  have hεlt : (2:ℚ) ^ (-53 : ℤ) < 1 :=
    zpow_lt_one_of_neg₀ (by norm_num) (by norm_num)
  have hq1 : (1:ℚ) ≤ 1 + (2:ℚ) ^ (-53 : ℤ) := by linarith
  have hq2 : 1 + (2:ℚ) ^ (-53 : ℤ) < 2 := by linarith
  have hqpos : (0:ℚ) < 1 + (2:ℚ) ^ (-53 : ℤ) := by linarith
  have hne : (1 + (2:ℚ) ^ (-53 : ℤ)) ≠ 0 := ne_of_gt hqpos
  have hlog : Int.log 2 |1 + (2:ℚ) ^ (-53 : ℤ)| = 0 := by
    rw [abs_of_pos hqpos, Int.log_of_one_le_right _ hq1]
    have hfloor : ⌊(1 + (2:ℚ) ^ (-53 : ℤ))⌋₊ = 1 := by
      rw [Nat.floor_eq_iff (by norm_num)]
      constructor <;> push_cast <;> linarith
    rw [hfloor]
    simp
  unfold fl
  rw [if_neg hne, hlog]
  have hscale : (1 + (2:ℚ) ^ (-53 : ℤ)) * 2 ^ ((52:ℤ) - 0) =
      ((2 ^ 52 : ℤ) : ℚ) + 1 / 2 := by
    rw [add_mul, one_mul, ← zpow_add₀ (by norm_num : (2:ℚ) ≠ 0)]
    push_cast
    norm_num
  rw [hscale]
  have hfl : ⌊((2 ^ 52 : ℤ) : ℚ) + 1 / 2⌋ = 2 ^ 52 := by
    rw [Int.floor_eq_iff]
    constructor
    · norm_num
    · push_cast
      norm_num
  have hround : round_even (((2 ^ 52 : ℤ) : ℚ) + 1 / 2) = 2 ^ 52 := by
    unfold round_even
    rw [hfl]
    rw [if_neg (by push_cast; norm_num), if_neg (by push_cast; norm_num),
      if_pos (by decide)]
  rw [hround]
  have h52 : ((2 ^ 52 : ℤ) : ℚ) = (2:ℚ) ^ (52:ℤ) := by
    push_cast
    norm_num
  rw [h52, ← zpow_add₀ (by norm_num : (2:ℚ) ≠ 0)]
  norm_num

/-- Counterexample to C7's affine half: take the affine unit with factor 1
and offset 1 (both exact doubles) and the exact double x = 2^-53.  In ideal
arithmetic the self-conversion formula returns x (first conjunct, the
program model's `dformula`); under the source's IEEE double arithmetic the
very same expression rounds `x + 1` to 1, and the result is 0, not x
(second conjunct): `convert(x, A, A)` does not return x exactly for affine
units. -/
theorem c7_counterexample :
    dformula (DVal.finite ((2:ℚ) ^ (-53 : ℤ))) 1 affine_one affine_one 1 =
      DVal.finite ((2:ℚ) ^ (-53 : ℤ)) ∧
    dformula_ieee ((2:ℚ) ^ (-53 : ℤ)) 1 affine_one affine_one 1 = 0 ∧
    ((2:ℚ) ^ (-53 : ℤ)) ≠ 0 := by
  refine ⟨?_, ?_, ?_⟩
  · simp only [dformula, affine_one]
    norm_num
  · have e1 : fl ((2:ℚ) ^ (-53 : ℤ) * 1) = (2:ℚ) ^ (-53 : ℤ) := by
      rw [mul_one]
      exact fl_zpow _
    have e2 : fl ((2:ℚ) ^ (-53 : ℤ) + 1) = 1 := by
      rw [add_comm]
      exact fl_one_add
    have e3 : fl ((1:ℚ) / 1) = 1 := by
      rw [div_one]
      exact fl_one
    have e4 : fl ((1:ℚ) * 1) = 1 := by
      rw [mul_one]
      exact fl_one
    have e5 : fl ((1:ℚ) - 1) = 0 := by
      rw [sub_self]
      exact fl_zero
    have e6 : fl ((0:ℚ) / 1) = 0 := by
      rw [zero_div]
      exact fl_zero
    simp only [dformula_ieee, affine_one]
    rw [e1, e2, e3, e4, e5, e6]
  · positivity

/-- Counterexample to C2 as stated: the conversion `5 m kg` on catalog
`[meter, kilogram]` from the fresh state fails with `IncompatibleUnits`,
yet all three pieces of recall state changed: the last number went from 0
to 5 and both unit slots were filled.  Recall state is thus not updated
only by successful conversions. -/
theorem c2_counterexample :
    (get_conversion (initial_state [meter, kilogram]) ⟨['5'], DVal.finite 5⟩
      ['m'] ['k','g']).ret = INCOMPATIBLE_UNITS ∧
    (get_conversion (initial_state [meter, kilogram]) ⟨['5'], DVal.finite 5⟩
      ['m'] ['k','g']).st.last_number = DVal.finite 5 ∧
    (initial_state [meter, kilogram]).last_number = DVal.finite 0 ∧
    (get_conversion (initial_state [meter, kilogram]) ⟨['5'], DVal.finite 5⟩
      ['m'] ['k','g']).st.last_input_unit = some meter ∧
    (initial_state [meter, kilogram]).last_input_unit = none ∧
    (get_conversion (initial_state [meter, kilogram]) ⟨['5'], DVal.finite 5⟩
      ['m'] ['k','g']).st.last_output_unit = some kilogram ∧
    (initial_state [meter, kilogram]).last_output_unit = none := by
  refine ⟨by decide, by decide, by decide, by decide, by decide, by decide,
    by decide⟩

/-- C2 (amended): recall state is updated eagerly rather than only on
success.  (1) The recall number always ends up as the call's effective
input, so it is overwritten by every call whose number text does not begin
with `':'`, failed or not.  (2) The unit list is never changed.  (3) After
a successful conversion the slots hold the two resolved units, and a side
resolved via recall-last kept its previous slot value.  (4) Each side's
slot is overwritten as soon as that side resolves by lookup: a conversion
that then fails the compatibility check still leaves both slots holding the
resolved units. -/
theorem c2_amended (st0 : Sys) (number : NumberArg)
    (iname oname : List Char) :
    (get_conversion st0 number iname oname).st.last_number =
      effective_input st0 number ∧
    (get_conversion st0 number iname oname).st.units = st0.units ∧
    ((get_conversion st0 number iname oname).ret = EXIT_SUCCESS →
      ∃ ipfx iu bi sti opfx ou bo sto,
        resolve_side (post_number_state st0 number) iname INPUT_UNIT =
          Except.ok (ipfx, iu, bi, sti) ∧
        resolve_side sti oname OUTPUT_UNIT = Except.ok (opfx, ou, bo, sto) ∧
        (get_conversion st0 number iname oname).st = sto ∧
        sto.last_input_unit = some iu ∧
        sto.last_output_unit = some ou ∧
        (bi = true → sto.last_input_unit = st0.last_input_unit) ∧
        (bo = true → sto.last_output_unit = st0.last_output_unit)) ∧
    (∀ ipfx opfx : ℚ, ∀ iu ou : CUnit, ∀ bi bo : Bool, ∀ sti sto : Sys,
      numeric_check_rejects (effective_input st0 number) = false →
      resolve_side (post_number_state st0 number) iname INPUT_UNIT =
        Except.ok (ipfx, iu, bi, sti) →
      resolve_side sti oname OUTPUT_UNIT = Except.ok (opfx, ou, bo, sto) →
      iu.unit_type ≠ ou.unit_type →
      get_conversion st0 number iname oname =
        ⟨INCOMPATIBLE_UNITS, none, sto⟩ ∧
        sto.last_input_unit = some iu ∧ sto.last_output_unit = some ou) := by
  have hpn := post_number_fields st0 number
  obtain ⟨hf1, hf2⟩ := conv_state_frame st0 number iname oname
  refine ⟨hf1, hf2, ?_, ?_⟩
  · intro hret
    by_cases hnum : numeric_check_rejects (effective_input st0 number)
    · have hbad : (get_conversion st0 number iname oname).ret =
          INVALID_INPUT := by
        simp only [get_conversion, hnum, if_true]
      rw [hret] at hbad
      exact absurd hbad (by decide)
    · rcases hres : resolve_side (post_number_state st0 number) iname
          INPUT_UNIT with ⟨e, st2⟩ | ⟨p, iu, bi, st2⟩
      · have hbad : (get_conversion st0 number iname oname).ret = e := by
          simp only [get_conversion, hnum, Bool.false_eq_true, if_false, hres]
        rw [hret] at hbad
        exact absurd hbad.symm (resolve_err_ne_zero _ _ _ _ _ hres)
      · rcases hres2 : resolve_side st2 oname OUTPUT_UNIT
            with ⟨e2, st3⟩ | ⟨p2, ou, bo, st3⟩
        · have hbad : (get_conversion st0 number iname oname).ret = e2 := by
            simp only [get_conversion, hnum, Bool.false_eq_true, if_false,
              hres, hres2]
          rw [hret] at hbad
          exact absurd hbad.symm (resolve_err_ne_zero _ _ _ _ _ hres2)
        · by_cases hty : iu.unit_type ≠ ou.unit_type
          · have hbad : (get_conversion st0 number iname oname).ret =
                INCOMPATIBLE_UNITS := by
              simp only [get_conversion, hnum, Bool.false_eq_true, if_false,
                hres, hres2, ne_eq, hty, not_false_eq_true, if_true]
            rw [hret] at hbad
            exact absurd hbad (by decide)
          · have h2 := resolve_ok_state _ _ _ _ _ _ _ hres
            have h3 := resolve_ok_state _ _ _ _ _ _ _ hres2
            have hio : (OUTPUT_UNIT : Int) ≠ INPUT_UNIT := by decide
            have hii : (INPUT_UNIT : Int) = INPUT_UNIT := rfl
            refine ⟨p, iu, bi, st2, p2, ou, bo, st3, rfl, hres2, ?_, ?_, ?_,
              ?_, ?_⟩
            · simp only [get_conversion, hnum, Bool.false_eq_true, if_false,
                hres, hres2, ne_eq, hty, if_false]
            · rw [(h3.2.2.2.2 hio).2.1]
              exact (h2.2.2.2.1 hii).1
            · exact (h3.2.2.2.2 hio).1
            · intro hbi
              rw [(h3.2.2.2.2 hio).2.1, h2.2.2.1 hbi]
              exact hpn.2.1
            · intro hbo
              rw [h3.2.2.1 hbo]
              rw [(h2.2.2.2.1 hii).2.1]
              exact hpn.2.2.1
  · intro ipfx opfx iu ou bi bo sti sto hnum hres hres2 hty
    have h2 := resolve_ok_state _ _ _ _ _ _ _ hres
    have h3 := resolve_ok_state _ _ _ _ _ _ _ hres2
    have hio : (OUTPUT_UNIT : Int) ≠ INPUT_UNIT := by decide
    have hii : (INPUT_UNIT : Int) = INPUT_UNIT := rfl
    refine ⟨conv_incompatible_eq st0 number iname oname ipfx opfx iu ou bi bo
      sti sto hnum hres hres2 hty, ?_, (h3.2.2.2.2 hio).1⟩
    rw [(h3.2.2.2.2 hio).2.1]
    exact (h2.2.2.2.1 hii).1

/-- Witness for C2 (amended), clause (4) at the `5 m kg` run: the failing
conversion still leaves both resolved units in the recall slots. -/
theorem c2_witness :
    get_conversion (initial_state [meter, kilogram]) ⟨['5'], DVal.finite 5⟩
        ['m'] ['k','g'] = ⟨INCOMPATIBLE_UNITS, none, st_mk_both⟩ ∧
    st_mk_both.last_input_unit = some meter ∧
    st_mk_both.last_output_unit = some kilogram :=
  (c2_amended (initial_state [meter, kilogram]) ⟨['5'], DVal.finite 5⟩
    ['m'] ['k','g']).2.2.2 1 1 meter kilogram false false st_mk_in st_mk_both
    rfl rfl rfl (by decide)

/-- Counterexample to C6 as stated: the double-prefixed token `"_k__m"` is
in scope — the engine strips `"_k"`, the lookup strips `"__"` and resolves
`"m"` to the meter record — and `convert 5 _k__m kg` duly fails with
`INCOMPATIBLE_UNITS`; but the interpreter's kinds-report re-resolves the
original token, strips only once to `"__m"`, finds no unit, and in the C
dereferences a NULL pointer (modelled `none`): the report does not name the
input side's kind, so the failure does not report both kinds. -/
theorem c6_counterexample :
    (get_conversion (initial_state [meter, kilogram]) ⟨['5'], DVal.finite 5⟩
      ['_','k','_','_','m'] ['k','g']).ret = INCOMPATIBLE_UNITS ∧
    (get_conversion (initial_state [meter, kilogram]) ⟨['5'], DVal.finite 5⟩
      ['_','k','_','_','m'] ['k','g']).st.last_input_unit = some meter ∧
    (get_conversion (initial_state [meter, kilogram]) ⟨['5'], DVal.finite 5⟩
      ['_','k','_','_','m'] ['k','g']).st.last_output_unit = some kilogram ∧
    (incompatible_units_report
      (get_conversion (initial_state [meter, kilogram]) ⟨['5'], DVal.finite 5⟩
        ['_','k','_','_','m'] ['k','g']).st
      ['_','k','_','_','m'] ['k','g']).1 = none ∧
    (some (get_type_str meter.unit_type) : Option (List Char)) ≠ none := by
  refine ⟨by decide, by decide, by decide, by decide, by decide⟩

/-- C6 (amended): when both unit tokens resolve but the resolved units'
type tags differ, the conversion fails with `INCOMPATIBLE_UNITS` and no
numeric result is produced, and when the tags are equal the conversion
never fails with `INCOMPATIBLE_UNITS`; the interpreter's error report —
which re-resolves both tokens against the post-call state — names both
units' kinds for every token whose name part does not itself begin with
`'_'` after the prefix strip (on those excluded tokens the report
re-resolves a different name and dereferences a NULL unit pointer, see the
counterexample). -/
theorem c6_incompatible_kinds (st0 : Sys) (number : NumberArg)
    (iname oname : List Char) (ipfx opfx : ℚ) (iu ou : CUnit)
    (bi bo : Bool) (sti sto : Sys)
    (hnum : numeric_check_rejects (effective_input st0 number) = false)
    (hin : resolve_side (post_number_state st0 number) iname INPUT_UNIT =
      Except.ok (ipfx, iu, bi, sti))
    (hout : resolve_side sti oname OUTPUT_UNIT =
      Except.ok (opfx, ou, bo, sto)) :
    (iu.unit_type ≠ ou.unit_type →
      get_conversion st0 number iname oname =
        ⟨INCOMPATIBLE_UNITS, none, sto⟩) ∧
    (iu.unit_type ≠ ou.unit_type →
      ((check_escape_sequences iname 1).error = RECALL_LAST ∨
        rd (iname.drop (check_escape_sequences iname 1).str_off) 0 ≠ '_') →
      ((check_escape_sequences oname 1).error = RECALL_LAST ∨
        rd (oname.drop (check_escape_sequences oname 1).str_off) 0 ≠ '_') →
      incompatible_units_report sto iname oname =
        (some (get_type_str iu.unit_type),
         some (get_type_str ou.unit_type))) ∧
    (iu.unit_type = ou.unit_type →
      (get_conversion st0 number iname oname).ret ≠ INCOMPATIBLE_UNITS) := by
  have h2 := resolve_ok_state _ _ _ _ _ _ _ hin
  have h3 := resolve_ok_state _ _ _ _ _ _ _ hout
  have hio : (OUTPUT_UNIT : Int) ≠ INPUT_UNIT := by decide
  have hii : (INPUT_UNIT : Int) = INPUT_UNIT := rfl
  have hslotin : sto.last_input_unit = some iu := by
    rw [(h3.2.2.2.2 hio).2.1]
    exact (h2.2.2.2.1 hii).1
  have hslotout : sto.last_output_unit = some ou := (h3.2.2.2.2 hio).1
  refine ⟨?_, ?_, ?_⟩
  · intro hty
    exact conv_incompatible_eq st0 number iname oname ipfx opfx iu ou bi bo
      sti sto hnum hin hout hty
  · intro hty hcin hcout
    have hlook1 : get_unit_by_name sto iname INPUT_UNIT = (some iu, sto) := by
      refine gubn_again (post_number_state st0 number) iname INPUT_UNIT
        ipfx iu bi sti sto hin hcin (h3.1.trans h2.1) ?_
      rw [if_pos hii]
      exact hslotin
    have hlook2 : get_unit_by_name sto oname OUTPUT_UNIT = (some ou, sto) := by
      refine gubn_again sti oname OUTPUT_UNIT opfx ou bo sto sto hout hcout
        h3.1 ?_
      rw [if_neg hio]
      exact hslotout
    simp [incompatible_units_report, hlook1, hlook2]
  · intro hty
    have heq : get_conversion st0 number iname oname =
        ⟨EXIT_SUCCESS, some (dformula (effective_input st0 number) ipfx iu ou
          opfx), sto⟩ := by
      simp only [get_conversion, hnum, Bool.false_eq_true, if_false, hin,
        hout, hty, ne_eq, not_true_eq_false, if_false]
    have hret : (get_conversion st0 number iname oname).ret = EXIT_SUCCESS := by
      rw [heq]
    rw [hret]
    decide

/-- Witness for C6 (amended): the failing conversion `5 m kg` returns
`INCOMPATIBLE_UNITS` with no result, and the interpreter's report names
`length` and `mass`. -/
theorem c6_witness :
    get_conversion (initial_state [meter, kilogram]) ⟨['5'], DVal.finite 5⟩
        ['m'] ['k','g'] = ⟨INCOMPATIBLE_UNITS, none, st_mk_both⟩ ∧
    incompatible_units_report st_mk_both ['m'] ['k','g'] =
      (some (get_type_str meter.unit_type),
       some (get_type_str kilogram.unit_type)) :=
  ⟨(c6_incompatible_kinds (initial_state [meter, kilogram])
      ⟨['5'], DVal.finite 5⟩ ['m'] ['k','g'] 1 1 meter kilogram false false
      st_mk_in st_mk_both rfl rfl rfl).1 (by decide),
   (c6_incompatible_kinds (initial_state [meter, kilogram])
      ⟨['5'], DVal.finite 5⟩ ['m'] ['k','g'] 1 1 meter kilogram false false
      st_mk_in st_mk_both rfl rfl rfl).2.1 (by decide)
      (Or.inr (by decide)) (Or.inr (by decide))⟩

/-- C10: catalog name lookup is itself state-mutating.  A recall name
(leading `':'` after the optional prefix strip) returns the selected slot
and changes nothing; a miss changes nothing; a hit overwrites exactly the
selected side's slot with the matched record, the unit list and the other
side's slot untouched — and the write persists even when the enclosing
conversion then fails the compatibility check. -/
theorem c10_lookup_mutates_slot (st : Sys) (name : List Char) (which : Int) :
    (rd (stripped_name name) 0 = ':' →
      get_unit_by_name st name which =
        ((if which = INPUT_UNIT then st.last_input_unit
          else st.last_output_unit), st)) ∧
    (rd (stripped_name name) 0 ≠ ':' →
      scan_units st.units (stripped_name name) = none →
      get_unit_by_name st name which = (none, st)) ∧
    (∀ u : CUnit, rd (stripped_name name) 0 ≠ ':' →
      scan_units st.units (stripped_name name) = some u →
      get_unit_by_name st name which =
        (some u, if which = INPUT_UNIT then
            { st with last_input_unit := some u }
          else { st with last_output_unit := some u })) ∧
    (get_unit_by_name st name which).2.units = st.units ∧
    (which = INPUT_UNIT →
      (get_unit_by_name st name which).2.last_output_unit =
        st.last_output_unit) ∧
    (which ≠ INPUT_UNIT →
      (get_unit_by_name st name which).2.last_input_unit =
        st.last_input_unit) ∧
    (∀ st0 : Sys, ∀ number : NumberArg, ∀ oname : List Char,
      ∀ ipfx opfx : ℚ, ∀ iu ou : CUnit, ∀ bi bo : Bool, ∀ sti sto : Sys,
      numeric_check_rejects (effective_input st0 number) = false →
      resolve_side (post_number_state st0 number) name INPUT_UNIT =
        Except.ok (ipfx, iu, bi, sti) →
      resolve_side sti oname OUTPUT_UNIT = Except.ok (opfx, ou, bo, sto) →
      iu.unit_type ≠ ou.unit_type →
      (get_conversion st0 number name oname).ret = INCOMPATIBLE_UNITS ∧
      (get_conversion st0 number name oname).st.last_input_unit = some iu ∧
      (get_conversion st0 number name oname).st.last_output_unit = some ou) := by
  have hfr := gubn_frame st name which
  refine ⟨fun h => gubn_recall st name which h,
    fun h hscan => by rw [gubn_scan st name which h, hscan],
    fun u h hscan => by rw [gubn_scan st name which h, hscan],
    hfr.1, hfr.2.2.2.2.1, hfr.2.2.2.2.2, ?_⟩
  intro st0 number oname ipfx opfx iu ou bi bo sti sto hnum hres hres2 hty
  have h2 := resolve_ok_state _ _ _ _ _ _ _ hres
  have h3 := resolve_ok_state _ _ _ _ _ _ _ hres2
  have hio : (OUTPUT_UNIT : Int) ≠ INPUT_UNIT := by decide
  have hii : (INPUT_UNIT : Int) = INPUT_UNIT := rfl
  have heq := conv_incompatible_eq st0 number name oname ipfx opfx iu ou
    bi bo sti sto hnum hres hres2 hty
  rw [heq]
  refine ⟨rfl, ?_, (h3.2.2.2.2 hio).1⟩
  rw [(h3.2.2.2.2 hio).2.1]
  exact (h2.2.2.2.1 hii).1

/-- Witness for C10: looking up the recall name `":"` on the input side in a
state whose input slot holds the meter record returns that record and
leaves the state untouched. -/
theorem c10_witness :
    get_unit_by_name st_recall_meter [':'] INPUT_UNIT =
      ((if (INPUT_UNIT : Int) = INPUT_UNIT then
          st_recall_meter.last_input_unit
        else st_recall_meter.last_output_unit), st_recall_meter) :=
  (c10_lookup_mutates_slot st_recall_meter [':'] INPUT_UNIT).1 (by decide)

/-- Counterexample to C8 as stated: on the catalog `[inch]` (aliases `in`,
`inch`, canonical `in`), converting `5 inch inch` and then `3 in :` — the
output token recalling the last output unit — makes the formatters display
the output unit as `inch`, the alias the user previously typed, not the
record's canonical (first-listed) name `in`. -/
theorem c8_counterexample :
    (get_conversion
      (get_conversion (initial_state [inch]) ⟨['5'], DVal.finite 5⟩
        ['i','n','c','h'] ['i','n','c','h']).st
      ⟨['3'], DVal.finite 3⟩ ['i','n'] [':']).ret = EXIT_SUCCESS ∧
    displayed_unit_name
      (get_conversion
        (get_conversion (initial_state [inch]) ⟨['5'], DVal.finite 5⟩
          ['i','n','c','h'] ['i','n','c','h']).st
        ⟨['3'], DVal.finite 3⟩ ['i','n'] [':']).st
      [':'] OUTPUT_UNIT = some ['i','n','c','h'] ∧
    canonical_name inch = some ['i','n'] ∧
    (['i','n','c','h'] : List Char) ≠ ['i','n'] := by
  refine ⟨by decide, by decide, by decide, by decide⟩

/-- C8 (amended): when a formatted output's unit token used recall-last —
bare `":"` or prefixed `"_P:"` — the displayed unit name is the stored
recalled name for that side (the alias recorded by the most recent
successful non-recall resolution of that side, prefix occluded), preceded
by the prefix letter the user typed in the prefixed form, and never the
literal `':'` syntax. -/
theorem c8_amended (st : Sys) (which : Int) (stored : List Char) (c : Char)
    (hname : (if which = INPUT_UNIT then st.last_input_name
      else st.last_output_name) = some stored) :
    displayed_unit_name st [':'] which = some stored ∧
    (0 ≤ get_prefix_value c →
      displayed_unit_name st ['_', c, ':'] which = some (c :: stored)) := by
  constructor
  · simp only [displayed_unit_name, build_unit_str, hname]
    simp +decide [rd]
  · intro hp
    have hc : c ≠ ':' := by
      intro h
      rw [h] at hp
      exact absurd hp (by decide)
    simp only [displayed_unit_name, build_unit_str, hname]
    simp +decide [rd, hc]

/-- Witness for C8 (amended): with `m` stored as the last output name, a
bare recall displays `m` and a `k`-prefixed recall displays `km`. -/
theorem c8_witness :
    displayed_unit_name st_m_both [':'] OUTPUT_UNIT = some ['m'] ∧
    displayed_unit_name st_m_both ['_','k',':'] OUTPUT_UNIT =
      some ['k','m'] :=
  ⟨(c8_amended st_m_both OUTPUT_UNIT ['m'] 'k' (by decide)).1,
   (c8_amended st_m_both OUTPUT_UNIT ['m'] 'k' (by decide)).2 (by decide)⟩

end Yucon
